import Mathlib

/-!
Verification of the frame-animator logic of this repository.

Two pieces of original logic are embedded:
* the per-vertex color-wave update of the molecular viewer
  (`updateColors` in the protein-viewer script), modelled over `ℚ`
  (the script's arithmetic here is `+`, `*`, `/`, `%` and comparisons,
  all exact on the rational inputs used in the claims);
* the particle update and pairwise connector-line pass of the canvas
  network animation (`Particle.update` and the body of `animate` in
  `js/net.js`); the particle dynamics are exact rational arithmetic,
  while the connector pass uses a square root and is modelled over `ℝ`.
-/

namespace ProteinViewer

/-- Configured temporal speed of the color wave (`colorWaveSpeed = 0.5`). -/
def colorWaveSpeed : ℚ := 1/2

/-- Configured spatial frequency of the color wave (`colorWaveFrequency = 0.1`). -/
def colorWaveFrequency : ℚ := 1/10

/-- Truncation toward zero, as used by the JavaScript remainder operator. -/
def ratTrunc (x : ℚ) : ℤ := if 0 ≤ x then ⌊x⌋ else ⌈x⌉

/-- The JavaScript remainder `a % b`: `a - b * trunc (a / b)` (sign of the
dividend).  The script computes `... % 1.0`. -/
def jsMod (a b : ℚ) : ℚ := a - b * ratTrunc (a / b)

/-- Normalized Y position of a vertex:
`(yRange > 0) ? (y - yMin) / yRange : 0.5`. -/
def normalizedY (y yMin yRange : ℚ) : ℚ :=
  if yRange > 0 then (y - yMin) / yRange else 1/2

/-- The hue written for a vertex of normalized height `h` at elapsed time
`time`: `(normalizedY * colorWaveFrequency + time * colorWaveSpeed) % 1.0`. -/
def hue (h time : ℚ) : ℚ :=
  jsMod (h * colorWaveFrequency + time * colorWaveSpeed) 1

/-- One entry of `atomMeshes`: the geometry's Y coordinates, its optional
color attribute (three components per vertex), and the precomputed `yMin`
and `yRange` of the bounding box. -/
structure MeshItem where
  positionsY : List ℚ
  colors : Option (List (ℚ × ℚ × ℚ))
  yMin : ℚ
  yRange : ℚ

/-- The warning logged when the color attribute is missing. -/
def warnMissingColor : String :=
  "Geometry missing color attribute for dynamic coloring."

/-- One iteration of the `atomMeshes.forEach` body of `updateColors`:
if the color attribute is absent, warn and return unchanged; otherwise
write `setHSL (hue ...) 1.0 0.5` into the slot of every vertex
(`setHSL` is the external color-space conversion of the rendering
library, kept abstract).  Returns the updated item and the warnings
logged. -/
def updateItem (setHSL : ℚ → ℚ → ℚ → ℚ × ℚ × ℚ) (time : ℚ)
    (it : MeshItem) : MeshItem × List String :=
  match it.colors with
  | none => (it, [warnMissingColor])
  | some cs =>
      let newColors :=
        (it.positionsY.map fun y =>
          setHSL (hue (normalizedY y it.yMin it.yRange) time) 1 (1/2))
        ++ cs.drop it.positionsY.length
      ({ it with colors := some newColors }, [])

/-- The function `updateColors(time)`: update every stored mesh item,
collecting the warnings logged along the way. -/
def updateColors (setHSL : ℚ → ℚ → ℚ → ℚ × ℚ × ℚ) (time : ℚ)
    (items : List MeshItem) : List MeshItem × List String :=
  (items.map fun it => (updateItem setHSL time it).1,
   (items.map fun it => (updateItem setHSL time it).2).flatten)

end ProteinViewer

namespace ProteinViewer

/-- C1: for every normalized height `h ∈ [0,1]` and elapsed time `t ≥ 0`,
the hue written by the color-wave update equals `(h * F + t * S) mod 1`
(mathematical fractional part) with `F = 0.1` and `S = 0.5`, and this hue
lies in `[0, 1)`. -/
theorem hue_formula_range (h t : ℚ) (hh0 : 0 ≤ h) (_hh1 : h ≤ 1) (ht : 0 ≤ t) :
    hue h t = Int.fract (h * (1/10) + t * (1/2)) ∧
      0 ≤ hue h t ∧ hue h t < 1 := by
  have harg : 0 ≤ h * colorWaveFrequency + t * colorWaveSpeed := by
    unfold colorWaveFrequency colorWaveSpeed
    positivity
  have key : hue h t = Int.fract (h * colorWaveFrequency + t * colorWaveSpeed) := by
    unfold hue jsMod ratTrunc
    rw [div_one, if_pos harg, Int.fract]
    ring
  refine ⟨?_, ?_, ?_⟩
  · rw [key]
    norm_num [colorWaveFrequency, colorWaveSpeed]
  · rw [key]
    exact Int.fract_nonneg _
  · rw [key]
    exact Int.fract_lt_one _

/-- Witness for C1 at `h = 1/2`, `t = 2` (the spec's end-to-end scenario 1,
where the hue is `0.05`). -/
theorem hue_formula_range_witness :
    hue (1/2) 2 = Int.fract ((1/2 : ℚ) * (1/10) + 2 * (1/2)) ∧
      0 ≤ hue (1/2 : ℚ) 2 ∧ hue (1/2 : ℚ) 2 < 1 :=
  hue_formula_range (1/2) 2 (by norm_num) (by norm_num) (by norm_num)

/-- C4: when the vertical extent is degenerate (`yMax = yMin`, so the
computed `yRange = yMax - yMin` is zero), the normalized height used for
coloring is exactly `0.5`: the guarded branch never divides. -/
theorem normalizedY_degenerate (y yMin yMax : ℚ) (hdeg : yMax = yMin) :
    normalizedY y yMin (yMax - yMin) = 1/2 := by
  subst hdeg
  simp [normalizedY]

/-- Witness for C4 at `y = 3`, `yMin = yMax = 7`. -/
theorem normalizedY_degenerate_witness :
    normalizedY 3 7 (7 - 7) = 1/2 :=
  normalizedY_degenerate 3 7 7 rfl

/-- C7: the configured temporal speed `S = colorWaveSpeed` is nonzero, and
for every normalized height `h ≥ 0` and time `t ≥ 0` the hue is periodic
in time with period `1 / S`. -/
theorem hue_periodic (h t : ℚ) (hh0 : 0 ≤ h) (ht : 0 ≤ t) :
    colorWaveSpeed ≠ 0 ∧ hue h (t + 1 / colorWaveSpeed) = hue h t := by
  constructor
  · norm_num [colorWaveSpeed]
  · have harg : 0 ≤ h * colorWaveFrequency + t * colorWaveSpeed := by
      unfold colorWaveFrequency colorWaveSpeed
      positivity
    have harg' : 0 ≤ h * colorWaveFrequency + (t + 1 / colorWaveSpeed) * colorWaveSpeed := by
      unfold colorWaveFrequency colorWaveSpeed at *
      nlinarith
    have hshift : h * colorWaveFrequency + (t + 1 / colorWaveSpeed) * colorWaveSpeed
        = (h * colorWaveFrequency + t * colorWaveSpeed) + 1 := by
      unfold colorWaveFrequency colorWaveSpeed
      ring
    unfold hue jsMod ratTrunc
    rw [div_one, div_one, if_pos harg, if_pos harg', hshift, Int.floor_add_one]
    push_cast
    ring

/-- Witness for C7 at `h = 1/2`, `t = 2`. -/
theorem hue_periodic_witness :
    colorWaveSpeed ≠ 0 ∧
      hue (1/2) (2 + 1 / colorWaveSpeed) = hue (1/2 : ℚ) 2 :=
  hue_periodic (1/2) 2 (by norm_num) (by norm_num)

/-- C9: with zero mesh items loaded, a tick of the color update returns the
empty buffer list unchanged and logs nothing; the function is total, so no
exception can arise. -/
theorem updateColors_empty (setHSL : ℚ → ℚ → ℚ → ℚ × ℚ × ℚ) (t : ℚ) :
    updateColors setHSL t [] = ([], []) := rfl

end ProteinViewer

namespace Net

/-- The obstacle rectangle: the title element's bounding client rect. -/
structure TitleBox where
  left : ℚ
  top : ℚ
  width : ℚ
  height : ℚ
  deriving DecidableEq

/-- The fixed environment of the animation: canvas size and obstacle. -/
structure NetEnv where
  width : ℚ
  height : ℚ
  titleBox : TitleBox
  deriving DecidableEq

/-- A particle's mutable state (fields used by `update`; the color and the
unused `baseX`/`baseY` snapshots are omitted). -/
structure Particle where
  x : ℚ
  y : ℚ
  radius : ℚ
  directionX : ℚ
  directionY : ℚ
  collision : Bool
  deriving DecidableEq

/-- First statements of `Particle.update`: `x += directionX; y += directionY`. -/
def moveStep (p : Particle) : Particle :=
  { p with x := p.x + p.directionX, y := p.y + p.directionY }

/-- Wall bounce of `Particle.update`: look-ahead tests
`x + radius + directionX >= width || x - radius + directionX <= 0`
(then the same on the y axis) negate the corresponding velocity
component. -/
def wallBounce (env : NetEnv) (p : Particle) : Particle :=
  let p1 :=
    if p.x + p.radius + p.directionX ≥ env.width ∨
        p.x - p.radius + p.directionX ≤ 0 then
      { p with directionX := -p.directionX }
    else p
  if p1.y + p1.radius + p1.directionY ≥ env.height ∨
      p1.y - p1.radius + p1.directionY ≤ 0 then
    { p1 with directionY := -p1.directionY }
  else p1

/-- Collision flag of `Particle.update`: the particle's inflated square
overlaps the title box. -/
def computeCollision (env : NetEnv) (p : Particle) : Particle :=
  { p with collision :=
      decide (p.x + p.radius > env.titleBox.left ∧
        p.x - p.radius < env.titleBox.left + env.titleBox.width ∧
        p.y + p.radius > env.titleBox.top ∧
        p.y - p.radius < env.titleBox.top + env.titleBox.height) }

/-- Obstacle bounce of `Particle.update`: the `if / else if` chain testing,
in order, the left, right, top and bottom 10 px edge margins while
colliding; the first matching branch negates the perpendicular velocity
component. -/
def obstacleBounce (env : NetEnv) (p : Particle) : Particle :=
  if p.collision = true ∧ p.x + p.radius < env.titleBox.left + 10 then
    { p with directionX := -p.directionX }
  else if p.collision = true ∧
      p.x - p.radius > env.titleBox.left + env.titleBox.width - 10 then
    { p with directionX := -p.directionX }
  else if p.collision = true ∧ p.y + p.radius < env.titleBox.top + 10 then
    { p with directionY := -p.directionY }
  else if p.collision = true ∧
      p.y - p.radius > env.titleBox.top + env.titleBox.height - 10 then
    { p with directionY := -p.directionY }
  else p

/-- The method `Particle.update()`: move, wall bounce, collision flag, obstacle
bounce, in the statement order of the source. -/
def Particle.update (env : NetEnv) (p : Particle) : Particle :=
  obstacleBounce env (computeCollision env (wallBounce env (moveStep p)))

end Net

namespace Net

/-- The wall-bounce phase never changes the position. -/
lemma wallBounce_pos (env : NetEnv) (p : Particle) :
    (wallBounce env p).x = p.x ∧ (wallBounce env p).y = p.y := by
  unfold wallBounce
  dsimp only
  split_ifs <;> exact ⟨rfl, rfl⟩

/-- The collision-flag phase never changes the position. -/
lemma computeCollision_pos (env : NetEnv) (p : Particle) :
    (computeCollision env p).x = p.x ∧ (computeCollision env p).y = p.y :=
  ⟨rfl, rfl⟩

/-- The obstacle-bounce phase never changes the position. -/
lemma obstacleBounce_pos (env : NetEnv) (p : Particle) :
    (obstacleBounce env p).x = p.x ∧ (obstacleBounce env p).y = p.y := by
  unfold obstacleBounce
  split_ifs <;> exact ⟨rfl, rfl⟩

/-- C10: one `update` changes the position by exactly the pre-call
velocity; every bounce test runs on the already-moved position and
modifies only the velocity components. -/
theorem update_moves_by_velocity (env : NetEnv) (p : Particle) :
    (Particle.update env p).x = p.x + p.directionX ∧
      (Particle.update env p).y = p.y + p.directionY := by
  unfold Particle.update
  rw [(obstacleBounce_pos env _).1, (obstacleBounce_pos env _).2,
    (computeCollision_pos env _).1, (computeCollision_pos env _).2,
    (wallBounce_pos env _).1, (wallBounce_pos env _).2]
  exact ⟨rfl, rfl⟩

/-- Canvas and far-away obstacle for the spec's end-to-end scenario 2. -/
def envC2 : NetEnv := ⟨100, 100, ⟨200, 200, 10, 10⟩⟩

/-- The scenario-2 particle: position `(5,5)`, radius 2, velocity `(-1,-1)`. -/
def particleC2 : Particle := ⟨5, 5, 2, -1, -1, false⟩

/-- C2 counterexample: at position `(5,5)` with radius 2 and velocity
`(-1,-1)` on a 100 × 100 canvas, one `update` does not produce velocity
`(1,1)` and position `(6,6)`: the left-edge look-ahead gives
`x - radius + directionX = 4 - 2 - 1 = 1 > 0`, so no bounce fires. -/
theorem update_scenario2_claim_false :
    ¬((Particle.update envC2 particleC2).directionX = 1 ∧
      (Particle.update envC2 particleC2).directionY = 1 ∧
      (Particle.update envC2 particleC2).x = 6 ∧
      (Particle.update envC2 particleC2).y = 6) := by
  norm_num [Particle.update, obstacleBounce, computeCollision, wallBounce,
    moveStep, envC2, particleC2]

/-- C2 amended: in scenario 2 the tick moves the particle to `(4,4)` and
leaves the velocity `(-1,-1)` (no wall test and no obstacle test fires). -/
theorem update_scenario2 :
    Particle.update envC2 particleC2 = ⟨4, 4, 2, -1, -1, false⟩ := by
  norm_num [Particle.update, obstacleBounce, computeCollision, wallBounce,
    moveStep, envC2, particleC2]

end Net

namespace Net

/-- C6: the obstacle pass of `Particle.update` (the decomposition equation
is part of the statement) tests, while colliding, the left, right, top and
bottom edge margins in that order; only the first matching condition
negates the perpendicular velocity component, and nothing fires when no
condition matches. -/
theorem obstacleBounce_tiebreak (env : NetEnv) (p : Particle)
    (hc : p.collision = true) :
    (∀ q : Particle, Particle.update env q =
        obstacleBounce env (computeCollision env (wallBounce env (moveStep q)))) ∧
    (p.x + p.radius < env.titleBox.left + 10 →
      obstacleBounce env p = { p with directionX := -p.directionX }) ∧
    (¬(p.x + p.radius < env.titleBox.left + 10) →
      p.x - p.radius > env.titleBox.left + env.titleBox.width - 10 →
      obstacleBounce env p = { p with directionX := -p.directionX }) ∧
    (¬(p.x + p.radius < env.titleBox.left + 10) →
      ¬(p.x - p.radius > env.titleBox.left + env.titleBox.width - 10) →
      p.y + p.radius < env.titleBox.top + 10 →
      obstacleBounce env p = { p with directionY := -p.directionY }) ∧
    (¬(p.x + p.radius < env.titleBox.left + 10) →
      ¬(p.x - p.radius > env.titleBox.left + env.titleBox.width - 10) →
      ¬(p.y + p.radius < env.titleBox.top + 10) →
      p.y - p.radius > env.titleBox.top + env.titleBox.height - 10 →
      obstacleBounce env p = { p with directionY := -p.directionY }) ∧
    (¬(p.x + p.radius < env.titleBox.left + 10) →
      ¬(p.x - p.radius > env.titleBox.left + env.titleBox.width - 10) →
      ¬(p.y + p.radius < env.titleBox.top + 10) →
      ¬(p.y - p.radius > env.titleBox.top + env.titleBox.height - 10) →
      obstacleBounce env p = p) := by
  refine ⟨fun q => rfl, ?_, ?_, ?_, ?_, ?_⟩ <;>
    · intros
      unfold obstacleBounce
      split_ifs <;> first | rfl | tauto

/-- Environment for the C6 witness: obstacle square at `(40,40)`–`(60,60)`. -/
def envC6 : NetEnv := ⟨100, 100, ⟨40, 40, 20, 20⟩⟩

/-- A colliding particle within the left 10 px margin of the obstacle. -/
def particleC6 : Particle := ⟨45, 50, 2, 1, 1, true⟩

/-- Witness for C6: the left-edge branch fires and negates `directionX`. -/
theorem obstacleBounce_tiebreak_witness :
    obstacleBounce envC6 particleC6 = ⟨45, 50, 2, -1, 1, true⟩ := by
  have h := (obstacleBounce_tiebreak envC6 particleC6 rfl).2.1
    (by norm_num [envC6, particleC6])
  rw [h]
  norm_num [particleC6]

end Net

namespace Net

/-- Environment for the C3 counterexample: the title box touches the right
canvas edge (`left = 70`, width 30 on a width-100 canvas). -/
def envC3 : NetEnv := ⟨100, 100, ⟨70, 0, 30, 100⟩⟩

/-- The C3 counterexample particle: inside the canvas at `(95,50)`,
radius 2, velocity `(2,0)`. -/
def particleC3 : Particle := ⟨95, 50, 2, 2, 0, false⟩

/-- C3 counterexample: from a position inside the canvas, four ticks drive
the particle to `x = 103`, outside `[-radius, width + radius] = [-2, 102]`:
each tick the wall bounce negates `directionX` and the obstacle's
right-edge branch negates it back, so the particle keeps moving right. -/
theorem update_bounded_claim_false :
    0 ≤ particleC3.x ∧ particleC3.x ≤ envC3.width ∧
      0 ≤ particleC3.y ∧ particleC3.y ≤ envC3.height ∧
      ((Particle.update envC3)^[4] particleC3).x = 103 ∧
      ¬(((Particle.update envC3)^[4] particleC3).x ≤
          envC3.width + particleC3.radius) := by
  have h1 : Particle.update envC3 particleC3 = ⟨97, 50, 2, 2, 0, true⟩ := by
    norm_num [Particle.update, obstacleBounce, computeCollision, wallBounce,
      moveStep, envC3, particleC3]
  have h2 : Particle.update envC3 ⟨97, 50, 2, 2, 0, true⟩
      = ⟨99, 50, 2, 2, 0, true⟩ := by
    norm_num [Particle.update, obstacleBounce, computeCollision, wallBounce,
      moveStep, envC3]
  have h3 : Particle.update envC3 ⟨99, 50, 2, 2, 0, true⟩
      = ⟨101, 50, 2, 2, 0, true⟩ := by
    norm_num [Particle.update, obstacleBounce, computeCollision, wallBounce,
      moveStep, envC3]
  have h4 : Particle.update envC3 ⟨101, 50, 2, 2, 0, true⟩
      = ⟨103, 50, 2, -2, 0, false⟩ := by
    norm_num [Particle.update, obstacleBounce, computeCollision, wallBounce,
      moveStep, envC3]
  have hiter : (Particle.update envC3)^[4] particleC3
      = ⟨103, 50, 2, -2, 0, false⟩ := by
    rw [show (4 : ℕ) = 3 + 1 from rfl, Function.iterate_succ_apply, h1,
      show (3 : ℕ) = 2 + 1 from rfl, Function.iterate_succ_apply, h2,
      show (2 : ℕ) = 1 + 1 from rfl, Function.iterate_succ_apply, h3,
      Function.iterate_one, h4]
  rw [hiter]
  norm_num [envC3, particleC3]

/-- The wall-bounce phase never changes the radius. -/
lemma wallBounce_radius (env : NetEnv) (p : Particle) :
    (wallBounce env p).radius = p.radius := by
  unfold wallBounce
  dsimp only
  split_ifs <;> rfl

/-- Characterization of the x velocity after the wall bounce. -/
lemma wallBounce_dirX (env : NetEnv) (p : Particle) :
    if p.x + p.radius + p.directionX ≥ env.width ∨
        p.x - p.radius + p.directionX ≤ 0 then
      (wallBounce env p).directionX = -p.directionX
    else
      (wallBounce env p).directionX = p.directionX := by
  unfold wallBounce
  dsimp only
  split_ifs <;> rfl

/-- Characterization of the y velocity after the wall bounce. -/
lemma wallBounce_dirY (env : NetEnv) (p : Particle) :
    if p.y + p.radius + p.directionY ≥ env.height ∨
        p.y - p.radius + p.directionY ≤ 0 then
      (wallBounce env p).directionY = -p.directionY
    else
      (wallBounce env p).directionY = p.directionY := by
  unfold wallBounce
  dsimp only
  split_ifs <;> rfl

/-- When the particle cannot reach the title box's left edge, the
collision flag is set to `false` and the obstacle pass is the identity. -/
lemma update_no_collision (env : NetEnv) (q : Particle)
    (h : ¬(q.x + q.radius > env.titleBox.left)) :
    obstacleBounce env (computeCollision env q) = { q with collision := false } := by
  have hdec : decide (q.x + q.radius > env.titleBox.left ∧
      q.x - q.radius < env.titleBox.left + env.titleBox.width ∧
      q.y + q.radius > env.titleBox.top ∧
      q.y - q.radius < env.titleBox.top + env.titleBox.height) = false := by
    simp only [decide_eq_false_iff_not]
    intro hC
    exact h hC.1
  unfold computeCollision obstacleBounce
  simp [hdec]

end Net

namespace Net

/-- Inductive invariant for `Particle.update` away from the obstacle: the
radius is `r`, the position lies in the inflated canvas, and the position
the current velocity would reach next tick lies there as well. -/
def WallInv (env : NetEnv) (r : ℚ) (p : Particle) : Prop :=
  p.radius = r ∧
  -r ≤ p.x ∧ p.x ≤ env.width + r ∧
  -r ≤ p.y ∧ p.y ≤ env.height + r ∧
  -r ≤ p.x + p.directionX ∧ p.x + p.directionX ≤ env.width + r ∧
  -r ≤ p.y + p.directionY ∧ p.y + p.directionY ≤ env.height + r

/-- One `Particle.update` preserves `WallInv` when the title box lies
beyond every reachable position. -/
lemma wallInv_step (env : NetEnv) (r : ℚ) (hr : 0 ≤ r)
    (hbox : env.width + 2 * r ≤ env.titleBox.left)
    (p : Particle) (hp : WallInv env r p) :
    WallInv env r (Particle.update env p) := by
  obtain ⟨hrad, hx0, hx1, hy0, hy1, hnx0, hnx1, hny0, hny1⟩ := hp
  have hqx : (wallBounce env (moveStep p)).x = p.x + p.directionX := by
    rw [(wallBounce_pos env (moveStep p)).1]
    exact rfl
  have hqy : (wallBounce env (moveStep p)).y = p.y + p.directionY := by
    rw [(wallBounce_pos env (moveStep p)).2]
    exact rfl
  have hqr : (wallBounce env (moveStep p)).radius = p.radius := by
    rw [wallBounce_radius]
    exact rfl
  have hnc : ¬((wallBounce env (moveStep p)).x +
      (wallBounce env (moveStep p)).radius > env.titleBox.left) := by
    rw [hqx, hqr]
    exact not_lt.mpr (by linarith)
  have hupdate : Particle.update env p
      = { wallBounce env (moveStep p) with collision := false } := by
    unfold Particle.update
    rw [update_no_collision env _ hnc]
  have hux : (Particle.update env p).x = p.x + p.directionX := by
    rw [hupdate]; exact hqx
  have huy : (Particle.update env p).y = p.y + p.directionY := by
    rw [hupdate]; exact hqy
  have hur : (Particle.update env p).radius = r := by
    rw [hupdate]; exact hqr.trans hrad
  have hudx : (Particle.update env p).directionX
      = (wallBounce env (moveStep p)).directionX := by
    rw [hupdate]
  have hudy : (Particle.update env p).directionY
      = (wallBounce env (moveStep p)).directionY := by
    rw [hupdate]
  have hdx := wallBounce_dirX env (moveStep p)
  have hdy := wallBounce_dirY env (moveStep p)
  have hxbounds :
      -r ≤ (p.x + p.directionX) + (wallBounce env (moveStep p)).directionX ∧
      (p.x + p.directionX) + (wallBounce env (moveStep p)).directionX
        ≤ env.width + r := by
    by_cases hcx : (moveStep p).x + (moveStep p).radius + (moveStep p).directionX
        ≥ env.width ∨
        (moveStep p).x - (moveStep p).radius + (moveStep p).directionX ≤ 0
    · rw [if_pos hcx] at hdx
      have hdx' : (wallBounce env (moveStep p)).directionX = -p.directionX := hdx
      rw [hdx']
      constructor <;> linarith
    · rw [if_neg hcx] at hdx
      have hdx' : (wallBounce env (moveStep p)).directionX = p.directionX := hdx
      push_neg at hcx
      obtain ⟨hc1, hc2⟩ := hcx
      have hc1' : p.x + p.directionX + p.radius + p.directionX < env.width := hc1
      have hc2' : 0 < p.x + p.directionX - p.radius + p.directionX := hc2
      rw [hdx']
      constructor <;> linarith
  have hybounds :
      -r ≤ (p.y + p.directionY) + (wallBounce env (moveStep p)).directionY ∧
      (p.y + p.directionY) + (wallBounce env (moveStep p)).directionY
        ≤ env.height + r := by
    by_cases hcy : (moveStep p).y + (moveStep p).radius + (moveStep p).directionY
        ≥ env.height ∨
        (moveStep p).y - (moveStep p).radius + (moveStep p).directionY ≤ 0
    · rw [if_pos hcy] at hdy
      have hdy' : (wallBounce env (moveStep p)).directionY = -p.directionY := hdy
      rw [hdy']
      constructor <;> linarith
    · rw [if_neg hcy] at hdy
      have hdy' : (wallBounce env (moveStep p)).directionY = p.directionY := hdy
      push_neg at hcy
      obtain ⟨hc1, hc2⟩ := hcy
      have hc1' : p.y + p.directionY + p.radius + p.directionY < env.height := hc1
      have hc2' : 0 < p.y + p.directionY - p.radius + p.directionY := hc2
      rw [hdy']
      constructor <;> linarith
  refine ⟨hur, ?_, ?_, ?_, ?_, ?_, ?_, ?_, ?_⟩
  · rw [hux]; exact hnx0
  · rw [hux]; exact hnx1
  · rw [huy]; exact hny0
  · rw [huy]; exact hny1
  · rw [hux, hudx]; exact hxbounds.1
  · rw [hux, hudx]; exact hxbounds.2
  · rw [huy, hudy]; exact hybounds.1
  · rw [huy, hudy]; exact hybounds.2

/-- C3 (amended): for a particle whose radius `r` is nonnegative and
bounds both velocity components (as for the 30 constructed particles,
`r = 2` and velocities drawn from `[-2, 2]`), starting anywhere inside
the canvas, and with the title box out of reach of the walls
(`width + 2r ≤ titleBox.left`), after arbitrarily many ticks the
x-coordinate never leaves `[-r, width + r]` and the y-coordinate never
leaves `[-r, height + r]`. -/
theorem update_bounded_no_obstacle (env : NetEnv) (p : Particle)
    (hr : 0 ≤ p.radius)
    (hx0 : 0 ≤ p.x) (hx1 : p.x ≤ env.width)
    (hy0 : 0 ≤ p.y) (hy1 : p.y ≤ env.height)
    (hdx0 : -p.radius ≤ p.directionX) (hdx1 : p.directionX ≤ p.radius)
    (hdy0 : -p.radius ≤ p.directionY) (hdy1 : p.directionY ≤ p.radius)
    (hbox : env.width + 2 * p.radius ≤ env.titleBox.left) (n : ℕ) :
    -p.radius ≤ ((Particle.update env)^[n] p).x ∧
      ((Particle.update env)^[n] p).x ≤ env.width + p.radius ∧
      -p.radius ≤ ((Particle.update env)^[n] p).y ∧
      ((Particle.update env)^[n] p).y ≤ env.height + p.radius := by
  have main : ∀ m : ℕ, WallInv env p.radius ((Particle.update env)^[m] p) := by
    intro m
    induction m with
    | zero =>
        simp only [Function.iterate_zero_apply]
        exact ⟨rfl, by linarith, by linarith, by linarith, by linarith,
          by linarith, by linarith, by linarith, by linarith⟩
    | succ k ih =>
        rw [Function.iterate_succ_apply']
        exact wallInv_step env p.radius hr hbox _ ih
  obtain ⟨_, a1, a2, a3, a4, _, _, _, _⟩ := main n
  exact ⟨a1, a2, a3, a4⟩

/-- Environment for the C3 witness: the title box starts at `x = 200`,
unreachable on a width-100 canvas with radius-2 particles. -/
def envW : NetEnv := ⟨100, 100, ⟨200, 0, 50, 20⟩⟩

/-- The C3 witness particle: at `(50,50)`, radius 2, velocity `(1,1)`. -/
def particleW : Particle := ⟨50, 50, 2, 1, 1, false⟩

/-- Witness for C3 (amended) after three ticks. -/
theorem update_bounded_no_obstacle_witness :
    -particleW.radius ≤ ((Particle.update envW)^[3] particleW).x ∧
      ((Particle.update envW)^[3] particleW).x ≤ envW.width + particleW.radius ∧
      -particleW.radius ≤ ((Particle.update envW)^[3] particleW).y ∧
      ((Particle.update envW)^[3] particleW).y ≤ envW.height + particleW.radius :=
  update_bounded_no_obstacle envW particleW
    (by norm_num [particleW]) (by norm_num [particleW])
    (by norm_num [particleW, envW]) (by norm_num [particleW])
    (by norm_num [particleW, envW]) (by norm_num [particleW])
    (by norm_num [particleW]) (by norm_num [particleW])
    (by norm_num [particleW]) (by norm_num [particleW, envW]) 3

end Net

namespace Net

/-- Euclidean distance computed by the pairwise connector loop of
`animate`: `Math.sqrt(dx * dx + dy * dy)`. -/
noncomputable def distance (p q : ℝ × ℝ) : ℝ :=
  Real.sqrt ((p.1 - q.1) * (p.1 - q.1) + (p.2 - q.2) * (p.2 - q.2))

/-- The connector threshold `maxDistance = 250`. -/
def maxDistance : ℝ := 250

/-- The stroke opacity `1 - distance / maxDistance`. -/
noncomputable def opacity (p q : ℝ × ℝ) : ℝ := 1 - distance p q / maxDistance

/-- A connector line is stroked exactly when `distance < maxDistance`. -/
def drawsLine (p q : ℝ × ℝ) : Prop := distance p q < maxDistance

/-- Index pairs visited by the nested loops
`for (i = 0; i < n; i++) for (j = i; j < n; j++)`. -/
def pairIndices (n : ℕ) : List (ℕ × ℕ) :=
  (List.range n).flatMap fun i => (List.range (n - i)).map fun k => (i, i + k)

/-- C5: a pair of particles closer than 250 is drawn with opacity exactly
`1 - d / 250`, which lies in `(0, 1]`; a pair at distance at least 250 is
not drawn; the iteration scheme starts the inner loop at `j = i`, so every
self-pair is visited, and a self-pair has distance 0 and is drawn at full
opacity 1. -/
theorem connector_opacity (p q : ℝ × ℝ) :
    (drawsLine p q →
      opacity p q = 1 - distance p q / 250 ∧
        0 < opacity p q ∧ opacity p q ≤ 1) ∧
    (250 ≤ distance p q → ¬drawsLine p q) ∧
    (∀ n i : ℕ, i < n → (i, i) ∈ pairIndices n) ∧
    (distance p p = 0 ∧ drawsLine p p ∧ opacity p p = 1) := by
  have hd0 : 0 ≤ distance p q := Real.sqrt_nonneg _
  have hself : distance p p = 0 := by
    unfold distance
    simp
  refine ⟨?_, ?_, ?_, hself, ?_, ?_⟩
  · intro hdraw
    unfold drawsLine maxDistance at hdraw
    unfold opacity maxDistance
    refine ⟨rfl, ?_, ?_⟩
    · have : distance p q / 250 < 1 := (div_lt_one (by norm_num)).mpr hdraw
      linarith
    · have : 0 ≤ distance p q / 250 := div_nonneg hd0 (by norm_num)
      linarith
  · intro hfar
    unfold drawsLine maxDistance
    exact not_lt.mpr hfar
  · intro n i hi
    unfold pairIndices
    simp only [List.mem_flatMap, List.mem_map, List.mem_range]
    exact ⟨i, hi, 0, by omega, by simp⟩
  · unfold drawsLine maxDistance
    rw [hself]
    norm_num
  · unfold opacity maxDistance
    rw [hself]
    norm_num

/-- Witness for C5 at points `(0,0)` and `(30,40)`, distance 50. -/
theorem connector_opacity_witness :
    drawsLine ((0 : ℝ), (0 : ℝ)) ((30 : ℝ), (40 : ℝ)) ∧
      opacity ((0 : ℝ), (0 : ℝ)) ((30 : ℝ), (40 : ℝ))
        = 1 - distance ((0 : ℝ), (0 : ℝ)) ((30 : ℝ), (40 : ℝ)) / 250 ∧
      0 < opacity ((0 : ℝ), (0 : ℝ)) ((30 : ℝ), (40 : ℝ)) ∧
      opacity ((0 : ℝ), (0 : ℝ)) ((30 : ℝ), (40 : ℝ)) ≤ 1 := by
  have hdist : distance ((0 : ℝ), (0 : ℝ)) ((30 : ℝ), (40 : ℝ)) = 50 := by
    unfold distance
    have harg : (((0 : ℝ), (0 : ℝ)).1 - ((30 : ℝ), (40 : ℝ)).1) *
          (((0 : ℝ), (0 : ℝ)).1 - ((30 : ℝ), (40 : ℝ)).1) +
          (((0 : ℝ), (0 : ℝ)).2 - ((30 : ℝ), (40 : ℝ)).2) *
          (((0 : ℝ), (0 : ℝ)).2 - ((30 : ℝ), (40 : ℝ)).2) = 50 ^ 2 := by
      norm_num
    rw [harg]
    exact Real.sqrt_sq (by norm_num)
  have hdraw : drawsLine ((0 : ℝ), (0 : ℝ)) ((30 : ℝ), (40 : ℝ)) := by
    unfold drawsLine maxDistance
    rw [hdist]
    norm_num
  exact ⟨hdraw, (connector_opacity ((0 : ℝ), (0 : ℝ)) ((30 : ℝ), (40 : ℝ))).1 hdraw⟩

end Net

namespace ProteinViewer

/-- C8: when a mesh item's color attribute is absent, the tick leaves that
item unchanged at its index in the output list, still produces one output
entry per input entry (the loop continues over the other meshes), and that
item's iteration yields exactly the missing-attribute warning; the update
is a total function, so no exception interrupts the frame loop. -/
theorem updateColors_missing_attribute (setHSL : ℚ → ℚ → ℚ → ℚ × ℚ × ℚ)
    (t : ℚ) (items : List MeshItem) (i : ℕ) (hi : i < items.length)
    (hc : (items.get ⟨i, hi⟩).colors = none) :
    (updateColors setHSL t items).1[i]? = some (items.get ⟨i, hi⟩) ∧
      (updateColors setHSL t items).1.length = items.length ∧
      updateItem setHSL t (items.get ⟨i, hi⟩)
        = (items.get ⟨i, hi⟩, [warnMissingColor]) := by
  have hitem : updateItem setHSL t (items.get ⟨i, hi⟩)
      = (items.get ⟨i, hi⟩, [warnMissingColor]) := by
    unfold updateItem
    rw [hc]
  refine ⟨?_, ?_, hitem⟩
  · simp only [updateColors, List.getElem?_map, List.getElem?_eq_getElem hi]
    simp only [List.get_eq_getElem] at hitem
    simp [hitem]
  · simp [updateColors]

/-- A mesh item lacking the color attribute. -/
def itemNoColor : MeshItem := ⟨[1, 2], none, 0, 1⟩

/-- An intact mesh item with a color attribute. -/
def itemWithColor : MeshItem := ⟨[3], some [(0, 0, 0)], 0, 1⟩

/-- Witness for C8 on a two-item list whose first item lacks colors. -/
theorem updateColors_missing_attribute_witness :
    (updateColors (fun _ _ _ => ((0 : ℚ), (0 : ℚ), (0 : ℚ))) 1
        [itemNoColor, itemWithColor]).1[0]?
        = some ([itemNoColor, itemWithColor].get ⟨0, by decide⟩) ∧
      (updateColors (fun _ _ _ => ((0 : ℚ), (0 : ℚ), (0 : ℚ))) 1
        [itemNoColor, itemWithColor]).1.length
        = [itemNoColor, itemWithColor].length ∧
      updateItem (fun _ _ _ => ((0 : ℚ), (0 : ℚ), (0 : ℚ))) 1
          ([itemNoColor, itemWithColor].get ⟨0, by decide⟩)
        = ([itemNoColor, itemWithColor].get ⟨0, by decide⟩, [warnMissingColor]) :=
  updateColors_missing_attribute (fun _ _ _ => ((0 : ℚ), (0 : ℚ), (0 : ℚ))) 1
    [itemNoColor, itemWithColor] 0 (by decide) rfl

end ProteinViewer
